import Mathlib

/-!
Verification development for the heatmiser-mqtt-bridge repository.

Each definition below is a shallow embedding of a piece of
`src/bridge.py` (class `HeatmiserMqttBridge`); the doc comment of every
definition names the lines of the source it translates.  Theorems at the
end of the file settle the frozen claims about the program.
-/

/-- Outcome of one invocation of the operation `func()` passed to
`HeatmiserMqttBridge.with_lock` (bridge.py line 166): it returns a value,
raises a transient transport error (`OSError` / `TimeoutError`,
line 167), or raises any other exception. -/
inductive AttemptOutcome
  | success (v : Nat)
  | transient
  | other
deriving DecidableEq

/-- Result of a call to `with_lock` (bridge.py lines 161-172).
`ok v` models `return func()` (line 166); `exhausted` models the
`raise Exception(...)` after the loop (line 172); `propagated` models a
non-transient exception escaping the `try` (only `OSError`/`TimeoutError`
are caught, line 167); `deadlock` models the nested acquisition of the
non-reentrant `self.hm_lock` that happens when `self.reconnect()`
(line 170) runs while the `with self.hm_lock` block of the retry attempt
(line 164) still holds the lock: `reconnect` immediately re-acquires the
same lock (line 175), so the thread blocks forever. -/
inductive RunResult
  | ok (v : Nat)
  | exhausted
  | propagated
  | deadlock
deriving DecidableEq

/-- Boolean test for the success constructor of `RunResult`. -/
def isSuccess : RunResult → Bool
  | RunResult.ok _ => true
  | _ => false

/-- Observable events of one `with_lock` execution path, used to state
where the exclusive transport lock `self.hm_lock` is held.
`acquire`/`release` are entry/exit of the `with self.hm_lock` block
(bridge.py line 164); `call a` is the invocation of `func()` on attempt
`a` (line 166); `sleepEv held` is `time.sleep(delay)` (line 171) tagged
with whether the path holds `hm_lock` at that moment; `reconnectEnter
held` is the call to `self.reconnect()` (line 170) tagged the same
way. -/
inductive Ev
  | acquire
  | call (attempt : Nat)
  | sleepEv (lockHeld : Bool)
  | release
  | reconnectEnter (lockHeld : Bool)
deriving DecidableEq

/-- Shallow embedding of the body of `with_lock` (bridge.py lines
163-172), starting from attempt index `a` with `fuel` loop iterations
remaining (`fuel = retries + 1 - a` when entered from the top).  The
source is

    for attempt in range(retries + 1):
        with self.hm_lock:
            try:
                return func()
            except (OSError, TimeoutError) as e:
                LOG.warning(...)
                if attempt == retries:
                    self.reconnect()
            time.sleep(delay)
    raise Exception("Failed to communicate with UH1 after retries")

Note that `time.sleep(delay)` is lexically inside the `with self.hm_lock`
block, and that `self.reconnect()` is invoked inside that block as well;
`reconnect` (lines 174-185) begins with `with self.hm_lock`, a second
acquisition of the same non-reentrant lock by the same thread, which
never returns — modelled by ending the trace with `reconnectEnter true`
and returning `deadlock`. -/
def withLockFrom (script : Nat → AttemptOutcome) (retries : Nat) :
    Nat → Nat → RunResult × List Ev
  | 0, _ => (RunResult.exhausted, [])
  | fuel + 1, a =>
    match script a with
    | AttemptOutcome.success v =>
        (RunResult.ok v, [Ev.acquire, Ev.call a, Ev.release])
    | AttemptOutcome.other =>
        (RunResult.propagated, [Ev.acquire, Ev.call a, Ev.release])
    | AttemptOutcome.transient =>
        if a = retries then
          (RunResult.deadlock, [Ev.acquire, Ev.call a, Ev.reconnectEnter true])
        else
          ((withLockFrom script retries fuel (a + 1)).1,
            Ev.acquire :: Ev.call a :: Ev.sleepEv true :: Ev.release ::
              (withLockFrom script retries fuel (a + 1)).2)

/-- Embedding of `with_lock(func, retries, delay)` (bridge.py lines
161-172): run the attempt loop from attempt 0 with `retries + 1`
iterations, where `script a` is the outcome of the `a`-th call to
`func()`. -/
def withLock (script : Nat → AttemptOutcome) (retries : Nat) :
    RunResult × List Ev :=
  withLockFrom script retries (retries + 1) 0

/-- Trace of `k` consecutive transient attempts starting at attempt
index `a`, as produced by the non-final iterations of the `with_lock`
loop: acquire the lock, call the operation, sleep the retry delay while
still holding the lock, release. -/
def attemptBlocks (a : Nat) : Nat → List Ev
  | 0 => []
  | k + 1 =>
      Ev.acquire :: Ev.call a :: Ev.sleepEv true :: Ev.release ::
        attemptBlocks (a + 1) k

/-- Checks that every sleep event in a trace happened while the lock was
held by the sleeping path. -/
def sleepsHeld (evs : List Ev) : Bool :=
  evs.all fun e =>
    match e with
    | Ev.sleepEv held => held
    | _ => true

/-- Script of operation outcomes that raises a transient transport error
on every attempt (an unreachable hub: every `func()` call raises
`OSError`). -/
def scrT : Nat → AttemptOutcome := fun _ => AttemptOutcome.transient

/-- Script whose first attempt raises a transient error and whose second
attempt succeeds with value 7. -/
def scrC8 : Nat → AttemptOutcome := fun j =>
  if j = 0 then AttemptOutcome.transient else AttemptOutcome.success 7

/-- Script whose first attempt raises a transient error and whose second
attempt raises a non-transient error. -/
def scrC5 : Nat → AttemptOutcome := fun j =>
  if j = 0 then AttemptOutcome.transient else AttemptOutcome.other

/-- Entry of the priority queue `self.task_queue` (bridge.py line 48,
`queue.PriorityQueue`): `enqueue_task` (lines 133-136) puts the tuple
`(priority, count, item)` where `priority` is 0 for commands and 1 for
polls and `count = next(self._counter)` is the monotonically increasing
sequence number from `itertools.count()` (line 49).  Python's
`PriorityQueue.get` removes the smallest tuple in lexicographic order;
since counts are unique, the payload is never compared, so an entry is
modelled by the pair `(priority, sequence)`. -/
abbrev QEntry := Nat × Nat

/-- Lexicographic order on queue entries: Python tuple comparison of
`(priority, count)`, the order by which `PriorityQueue.get` selects the
entry to remove. -/
def entryLe (x y : QEntry) : Bool :=
  if x.1 < y.1 then true
  else if x.1 = y.1 then decide (x.2 ≤ y.2)
  else false

/-- Embedding of one `self.task_queue.get()` (bridge.py line 141): remove
a lexicographically least entry from the pending multiset, returning it
together with the remaining entries; `none` on an empty queue (the real
`get` blocks instead). -/
def popMin : List QEntry → Option (QEntry × List QEntry)
  | [] => none
  | x :: xs =>
    match popMin xs with
    | none => some (x, [])
    | some (m, rest) =>
        if entryLe x m then some (x, xs) else some (m, x :: rest)

/-- Repeatedly `get` until the queue is empty, with explicit fuel; the
list returned is the order in which the worker dequeues the pending
entries. -/
def drainFuel : Nat → List QEntry → List QEntry
  | 0, _ => []
  | fuel + 1, l =>
    match popMin l with
    | none => []
    | some (m, rest) => m :: drainFuel fuel rest

/-- Dequeue every pending entry of the queue in `get` order. -/
def drain (l : List QEntry) : List QEntry := drainFuel l.length l

/-- Embedding of a run of `enqueue_task` calls (bridge.py lines 133-136)
with priorities `ps`, where the shared counter currently reads `c`: each
task receives the next counter value as its sequence number. -/
def enqueueFrom (c : Nat) : List Nat → List QEntry
  | [] => []
  | p :: ps => (p, c) :: enqueueFrom (c + 1) ps

/-- Enqueue tasks with priorities `ps` starting from a fresh counter
(`itertools.count()` starts at 0, bridge.py line 49). -/
def enqueueAll (ps : List Nat) : List QEntry := enqueueFrom 0 ps

/-- Task record as dequeued by `worker_thread` (bridge.py line 141):
priority, sequence number, the operation (as the script of outcomes its
successive transport attempts produce inside `with_lock`), the `is_poll`
flag, and the callback: whether one is present and whether invoking it
raises. -/
structure WTask where
  priority : Nat
  seq : Nat
  script : Nat → AttemptOutcome
  isPoll : Bool
  hasCallback : Bool
  callbackRaises : Bool

/-- Per-task outcome observed at the worker (bridge.py lines 142-153):
`completed v cbFailed` — `with_lock` returned `v`; `cbFailed` records
that the callback raised and was caught and logged by the inner
`try/except` (lines 146-149); `failedLogged` — the task raised and the
outer `except Exception` logged it (lines 152-153); `blocked` — the task
never finished because `with_lock` deadlocked in `reconnect`. -/
inductive TaskOutcome
  | completed (v : Nat) (cbFailed : Bool)
  | failedLogged
  | blocked
deriving DecidableEq

/-- Embedding of one iteration of the worker body (bridge.py lines
142-153): execute the operation through `with_lock` with the default
`retries=2` (line 161), isolate callback failures, map any raised error
to a logged failure. -/
def runTask (t : WTask) : TaskOutcome :=
  match (withLock t.script 2).1 with
  | RunResult.ok v => TaskOutcome.completed v (t.hasCallback && t.callbackRaises)
  | RunResult.propagated => TaskOutcome.failedLogged
  | RunResult.exhausted => TaskOutcome.failedLogged
  | RunResult.deadlock => TaskOutcome.blocked

/-- Embedding of `worker_thread` (bridge.py lines 138-159) processing a
queue of tasks in dequeue order: each task is executed exactly once
(there is no task-level retry or re-enqueue); the `while True` loop
continues after `completed` and `failedLogged` outcomes, but a `blocked`
task stops the worker forever, leaving later tasks unprocessed.  Returns
the association of each processed task's sequence number with its
outcome. -/
def workerRun : List WTask → List (Nat × TaskOutcome)
  | [] => []
  | t :: ts =>
    match runTask t with
    | TaskOutcome.blocked => [(t.seq, TaskOutcome.blocked)]
    | o => (t.seq, o) :: workerRun ts

/-- State of the poll-coalescing machinery (bridge.py lines 50-51,
242-246, 154-157): `flag` is `self._poll_pending`; `pendingTrig` counts
the threads that are between setting the flag inside the
`self._poll_pending_lock` block (line 245) and the `enqueue_task` call
that follows it outside that block (line 246); `queued` counts the
poll-priority tasks sitting in `self.task_queue`; `executing` records
whether the worker is currently processing a poll task. -/
structure PollSt where
  flag : Bool
  pendingTrig : Nat
  queued : Nat
  executing : Bool
deriving DecidableEq

/-- Number of poll tasks in flight: enqueued or being executed by the
worker. -/
def inflight (s : PollSt) : Nat := s.queued + (if s.executing then 1 else 0)

/-- The flag read as a count. -/
def flagCount (s : PollSt) : Nat := if s.flag then 1 else 0

/-- Interleaved steps of the poll producers and the worker, at the
granularity of the lock scopes in the source:

* `trigSet` — `publish_states` (bridge.py lines 242-245) finds
  `_poll_pending` false inside `_poll_pending_lock`, sets it true and
  leaves the lock, about to enqueue;
* `trigSkip` — `publish_states` finds the flag true and returns without
  enqueueing (lines 243-244);
* `trigEnqueue` — the same thread performs the
  `enqueue_task(1, poll_all, ..., is_poll=True)` call (line 246), which
  happens outside `_poll_pending_lock`;
* `workerDequeue` — the worker takes a queued poll task off the queue
  (line 141);
* `workerFinish outcome` — the worker reaches the `finally` block of a
  poll task and clears `_poll_pending` under its lock (lines 154-157);
  this happens whether the task succeeded or failed, which the
  `outcome` argument records without influencing the transition. -/
inductive PStep : PollSt → PollSt → Prop
  | trigSet (s : PollSt) : s.flag = false →
      PStep s ⟨true, s.pendingTrig + 1, s.queued, s.executing⟩
  | trigSkip (s : PollSt) : s.flag = true → PStep s s
  | trigEnqueue (s : PollSt) (p : Nat) : s.pendingTrig = p + 1 →
      PStep s ⟨s.flag, p, s.queued + 1, s.executing⟩
  | workerDequeue (s : PollSt) (q : Nat) : s.queued = q + 1 →
      s.executing = false → PStep s ⟨s.flag, s.pendingTrig, q, true⟩
  | workerFinish (s : PollSt) (outcome : Bool) : s.executing = true →
      PStep s ⟨false, s.pendingTrig, s.queued, false⟩

/-- Startup state: `self._poll_pending = False` (bridge.py line 50),
empty queue, idle worker. -/
def pollInit : PollSt := ⟨false, 0, 0, false⟩

/-- States reachable from startup by interleavings of poll triggers and
the worker. -/
inductive PollReach : PollSt → Prop
  | init : PollReach pollInit
  | step {s t : PollSt} : PollReach s → PStep s t → PollReach t

/-- Snapshot of one thermostat as read through the heatmiserv3 device
link: the values returned by `get_air_temp()`, `get_floor_temp()`,
`get_target_temp()`, whether `get_run_mode()` reads `"frost"`, and
whether `get_current_state()` reports an active heating output.
Temperatures are opaque numeric readings (no arithmetic is performed on
them by the bridge), modelled as integers. -/
structure ThermoReading where
  airTemp : Int
  floorTemp : Int
  targetTemp : Int
  runModeFrost : Bool
  heatActive : Bool
deriving DecidableEq

/-- The four per-zone attributes published to
`home/heatmiser/<name>/state/{temperature,target,mode,action}`. -/
structure ZoneState where
  temperature : Int
  target : Int
  mode : String
  action : String
deriving DecidableEq

/-- Attribute derivation of the immediate publish path
`_publish_single_state` (bridge.py lines 193-198), before the overrides
are merged:

    state = {
        "temperature": thermo.get_air_temp(),
        "target": thermo.get_target_temp(),
        "mode": "off" if thermo.get_run_mode() == "frost" else "heat",
        "action": "heating" if thermo.get_current_state() else "idle",
    }

The temperature is always the air sensor reading; there is no
sensor-type check on this path. -/
def immediateState (r : ThermoReading) : ZoneState :=
  { temperature := r.airTemp
    target := r.targetTemp
    mode := if r.runModeFrost then "off" else "heat"
    action := if r.heatActive then "heating" else "idle" }

/-- Attribute derivation of the batch poll path, one zone of `poll_all`
inside `publish_states` (bridge.py lines 226-235):

    temp = thermo.get_air_temp() if zone.get("sensor_type") == "air" else thermo.get_floor_temp()

`sensorType` is `zone.get("sensor_type")` (`none` when the key is
absent): the air reading is used exactly when it equals `"air"`,
otherwise the floor reading. -/
def pollZoneState (sensorType : Option String) (r : ThermoReading) : ZoneState :=
  { temperature := if sensorType = some "air" then r.airTemp else r.floorTemp
    target := r.targetTemp
    mode := if r.runModeFrost then "off" else "heat"
    action := if r.heatActive then "heating" else "idle" }

/-- Overrides dictionary passed to `_publish_single_state(name,
overrides)`: the producers build `{"target": val}` (bridge.py line 109)
or `{"mode": payload.lower()}` (line 121); `state.update(overrides)`
(line 199) replaces exactly the present keys. -/
structure StateOverride where
  temperature : Option Int
  target : Option Int
  mode : Option String
  action : Option String
deriving DecidableEq

/-- Embedding of `state.update(overrides)` (bridge.py line 199): each
attribute present in the overrides dictionary replaces the freshly read
one; the published values are the fields of the result (lines
200-201, published with `retain=True`). -/
def applyOverride (s : ZoneState) (o : StateOverride) : ZoneState :=
  ⟨o.temperature.getD s.temperature, o.target.getD s.target,
   o.mode.getD s.mode, o.action.getD s.action⟩

/-- Device operations carried by enqueued command tasks: the bound
methods `thermo.set_target_temp(val)` (bridge.py line 112) and
`thermo.set_frost_protect_mode(frost)` (line 124). -/
inductive DeviceOp
  | setTarget (v : Int)
  | setFrost (frost : Bool)
deriving DecidableEq

/-- Outcome of evaluating `round(float(payload))` (bridge.py line 108)
on the incoming `set/target` payload, following Python semantics:

* `val v` — the payload is a finite numeric string; `float` parses it
  and `round` (round-half-to-even) yields the integer `v`;
* `valueError` — `float(payload)` raises `ValueError` (non-numeric
  text), or the payload parses to NaN and `round` raises `ValueError`
  ("cannot convert float NaN to integer");
* `overflowError` — the payload parses to an infinite float (payloads
  such as "inf" or "1e400") and `round` raises `OverflowError`
  ("cannot convert float infinity to integer"). -/
inductive RoundOutcome
  | val (v : Int)
  | valueError
  | overflowError
deriving DecidableEq

/-- Result of one message-handler branch at the producer boundary:
the command tasks it enqueued as `(priority, operation)` pairs, whether
it logged a warning, and whether an exception escaped `on_message`. -/
structure HandlerOut where
  tasks : List (Nat × DeviceOp)
  logged : Bool
  raised : Bool
deriving DecidableEq

/-- Embedding of the `set/target` branch of `on_message` (bridge.py
lines 106-117):

    try:
        val = round(float(payload))
        ...
        self.enqueue_task(0, thermo.set_target_temp, args=(val,), ...)
    except ValueError:
        LOG.warning("Invalid target temp for %s: %s", name, payload)

A successful round enqueues exactly one priority-0 command task with the
rounded value; a `ValueError` is caught and logged, enqueueing nothing;
an `OverflowError` is not matched by `except ValueError` and escapes the
handler, enqueueing nothing. -/
def onMessageTarget (r : RoundOutcome) : HandlerOut :=
  match r with
  | RoundOutcome.val v => ⟨[(0, DeviceOp.setTarget v)], false, false⟩
  | RoundOutcome.valueError => ⟨[], true, false⟩
  | RoundOutcome.overflowError => ⟨[], false, true⟩

/-- Python's `round` to an integer on the exact rational value of a
finite float: round to the nearest integer, ties to the even one
(banker's rounding). -/
def pyRoundQ (q : ℚ) : Int :=
  if q - Int.floor q < 1 / 2 then Int.floor q
  else if q - Int.floor q > 1 / 2 then Int.floor q + 1
  else if Int.floor q % 2 = 0 then Int.floor q else Int.floor q + 1

/-- ASCII embedding of Python's `str.upper()` as used on payloads
(bridge.py lines 90, 120). -/
def pyUpper (s : String) : String := ⟨s.data.map Char.toUpper⟩

/-- ASCII embedding of Python's `str.lower()` as used on payloads
(bridge.py line 121). -/
def pyLower (s : String) : String := ⟨s.data.map Char.toLower⟩

/-- What the `set/mode` branch of `on_message` (bridge.py lines
119-127) produces from a payload: the argument of
`set_frost_protect_mode` and the overrides dictionary captured for the
completion callback:

    frost = payload.upper() == "OFF"
    expected = {"mode": payload.lower()}

-/
structure ModeCmd where
  frost : Bool
  modeOverride : StateOverride

/-- Embedding of the `set/mode` branch of `on_message` (bridge.py lines
119-127): any payload whose uppercasing is not "OFF" requests normal
heating mode (`frost = false`); the callback will publish the lowercased
raw payload as the retained mode value via
`_publish_single_state(name, {"mode": payload.lower()})`. -/
def onMessageMode (payload : String) : ModeCmd :=
  ⟨pyUpper payload == "OFF", ⟨none, none, some (pyLower payload), none⟩⟩


/-- Command task whose operation succeeds with value 5 at the first
attempt, with no callback. -/
def tSuccess : WTask := ⟨0, 1, fun _ => AttemptOutcome.success 5, false, false, false⟩

/-- Command task whose operation raises a non-transient error at the
first attempt. -/
def tOther : WTask := ⟨0, 0, fun _ => AttemptOutcome.other, false, false, false⟩

/-- Command task whose operation succeeds with value 7 but whose
completion callback raises. -/
def tCbRaises : WTask := ⟨0, 0, fun _ => AttemptOutcome.success 7, false, true, true⟩

/-- Command task whose operation raises a transient transport error on
every attempt. -/
def tAllTransient : WTask := ⟨0, 0, scrT, false, false, false⟩

/-! ### Helper lemmas about the transport arbiter -/

lemma attemptBlocks_mem {e : Ev} :
    ∀ k a, e ∈ attemptBlocks a k →
      e = Ev.acquire ∨ e = Ev.release ∨ e = Ev.sleepEv true ∨
        ∃ j, a ≤ j ∧ j < a + k ∧ e = Ev.call j := by
  intro k
  induction k with
  | zero => intro a h; simp [attemptBlocks] at h
  | succ k ih =>
    intro a h
    simp only [attemptBlocks, List.mem_cons] at h
    rcases h with h | h | h | h | h
    · exact Or.inl h
    · exact Or.inr (Or.inr (Or.inr ⟨a, le_refl a, by omega, h⟩))
    · exact Or.inr (Or.inr (Or.inl h))
    · exact Or.inr (Or.inl h)
    · rcases ih (a + 1) h with h | h | h | ⟨j, hj1, hj2, hj3⟩
      · exact Or.inl h
      · exact Or.inr (Or.inl h)
      · exact Or.inr (Or.inr (Or.inl h))
      · exact Or.inr (Or.inr (Or.inr ⟨j, by omega, by omega, hj3⟩))

lemma withLockFrom_other (script : Nat → AttemptOutcome) (retries : Nat) :
    ∀ k fuel a, k < fuel → a + k ≤ retries →
      (∀ j, j < k → script (a + j) = AttemptOutcome.transient) →
      script (a + k) = AttemptOutcome.other →
      withLockFrom script retries fuel a =
        (RunResult.propagated,
          attemptBlocks a k ++ [Ev.acquire, Ev.call (a + k), Ev.release]) := by
  intro k
  induction k with
  | zero =>
    intro fuel a hf hle hpre hother
    match fuel, hf with
    | fuel + 1, _ =>
      rw [Nat.add_zero] at hother
      simp [withLockFrom, hother, attemptBlocks]
  | succ k ih =>
    intro fuel a hf hle hpre hother
    match fuel, hf with
    | fuel + 1, hf =>
      have h0 : script a = AttemptOutcome.transient := by
        have := hpre 0 (Nat.succ_pos k)
        simpa using this
      have hane : a ≠ retries := by omega
      have hrec := ih fuel (a + 1) (by omega) (by omega)
        (fun j hj => by
          have := hpre (j + 1) (by omega)
          simpa [Nat.add_assoc, Nat.add_comm 1 j] using this)
        (by
          have : a + 1 + k = a + (k + 1) := by omega
          rw [this]; exact hother)
      have hidx : a + 1 + k = a + (k + 1) := by omega
      simp [withLockFrom, h0, hane, hrec, attemptBlocks, hidx]

lemma withLockFrom_allTransient (script : Nat → AttemptOutcome) (retries : Nat) :
    ∀ fuel a, a + fuel = retries + 1 → 0 < fuel →
      (∀ j, a ≤ j → j ≤ retries → script j = AttemptOutcome.transient) →
      (withLockFrom script retries fuel a).1 = RunResult.deadlock ∧
        Ev.reconnectEnter true ∈ (withLockFrom script retries fuel a).2 := by
  intro fuel
  induction fuel with
  | zero => intro a _ h; omega
  | succ f ih =>
    intro a ha _ hall
    have hat : script a = AttemptOutcome.transient := hall a (le_refl a) (by omega)
    by_cases hae : a = retries
    · subst hae
      simp [withLockFrom, hat]
    · have hrec := ih (a + 1) (by omega) (by omega)
        (fun j h1 h2 => hall j (by omega) h2)
      constructor
      · simpa [withLockFrom, hat, hae] using hrec.1
      · simp only [withLockFrom, hat, if_neg hae]
        exact List.mem_cons_of_mem _ (List.mem_cons_of_mem _
          (List.mem_cons_of_mem _ (List.mem_cons_of_mem _ hrec.2)))

lemma sleepsHeld_withLockFrom (script : Nat → AttemptOutcome) (retries : Nat) :
    ∀ fuel a, sleepsHeld (withLockFrom script retries fuel a).2 = true := by
  intro fuel
  induction fuel with
  | zero => intro a; rfl
  | succ f ih =>
    intro a
    cases h : script a with
    | success v => simp [withLockFrom, h, sleepsHeld]
    | other => simp [withLockFrom, h, sleepsHeld]
    | transient =>
      by_cases hae : a = retries
      · subst hae; simp [withLockFrom, h, sleepsHeld]
      · have := ih (a + 1)
        simp only [sleepsHeld, List.all_eq_true] at this ⊢
        intro e he
        simp only [withLockFrom, h, if_neg hae, List.mem_cons] at he
        rcases he with he | he | he | he | he
        all_goals first
          | (subst he; rfl)
          | exact this e he

/-! ### Helper lemmas about the priority queue -/

lemma entryLe_iff (x y : QEntry) :
    entryLe x y = true ↔ x.1 < y.1 ∨ (x.1 = y.1 ∧ x.2 ≤ y.2) := by
  unfold entryLe
  split_ifs with h1 h2 <;> simp_all

lemma entryLe_refl (x : QEntry) : entryLe x x = true := by
  rw [entryLe_iff]; omega

lemma entryLe_total (x y : QEntry) :
    entryLe x y = true ∨ entryLe y x = true := by
  rw [entryLe_iff, entryLe_iff]; omega

lemma entryLe_trans {x y z : QEntry} (h1 : entryLe x y = true)
    (h2 : entryLe y z = true) : entryLe x z = true := by
  rw [entryLe_iff] at h1 h2 ⊢; omega

lemma popMin_nil_iff {l : List QEntry} : popMin l = none ↔ l = [] := by
  cases l with
  | nil => simp [popMin]
  | cons x xs =>
    rcases hx : popMin xs with _ | ⟨m, rest⟩
    · simp [popMin, hx]
    · simp only [popMin, hx]
      split <;> simp

lemma popMin_perm :
    ∀ l m rest, popMin l = some (m, rest) → List.Perm (m :: rest) l := by
  intro l
  induction l with
  | nil => intro m rest h; simp [popMin] at h
  | cons x xs ih =>
    intro m rest h
    rcases hx : popMin xs with _ | ⟨m2, r2⟩
    · have hnil : xs = [] := popMin_nil_iff.mp hx
      subst hnil
      simp only [popMin] at h
      simp only [Option.some.injEq, Prod.mk.injEq] at h
      rw [← h.1, ← h.2]
    · simp only [popMin, hx] at h
      by_cases hle : entryLe x m2 = true
      · rw [if_pos hle] at h
        simp only [Option.some.injEq, Prod.mk.injEq] at h
        rw [← h.1, ← h.2]
      · rw [if_neg hle] at h
        simp only [Option.some.injEq, Prod.mk.injEq] at h
        have hperm := ih m2 r2 hx
        rw [← h.1, ← h.2]
        exact (List.Perm.swap x m2 r2).trans (List.Perm.cons x hperm)

lemma popMin_min :
    ∀ l m rest, popMin l = some (m, rest) →
      ∀ y ∈ l, entryLe m y = true := by
  intro l
  induction l with
  | nil => intro m rest h; simp [popMin] at h
  | cons x xs ih =>
    intro m rest h y hy
    rcases hx : popMin xs with _ | ⟨m2, r2⟩
    · have hnil : xs = [] := popMin_nil_iff.mp hx
      subst hnil
      simp only [popMin] at h
      simp only [Option.some.injEq, Prod.mk.injEq] at h
      simp only [List.mem_cons, List.not_mem_nil, or_false] at hy
      subst hy
      rw [← h.1]
      exact entryLe_refl y
    · simp only [popMin, hx] at h
      have hmin2 := ih m2 r2 hx
      by_cases hle : entryLe x m2 = true
      · rw [if_pos hle] at h
        simp only [Option.some.injEq, Prod.mk.injEq] at h
        rw [← h.1]
        rcases List.mem_cons.mp hy with hy | hy
        · subst hy; exact entryLe_refl y
        · exact entryLe_trans hle (hmin2 y hy)
      · rw [if_neg hle] at h
        simp only [Option.some.injEq, Prod.mk.injEq] at h
        rw [← h.1]
        rcases List.mem_cons.mp hy with hy | hy
        · subst hy
          rcases entryLe_total y m2 with htot | htot
          · exact absurd htot hle
          · exact htot
        · exact hmin2 y hy

lemma popMin_length {l : List QEntry} {m : QEntry} {rest : List QEntry}
    (h : popMin l = some (m, rest)) : rest.length + 1 = l.length := by
  have := (popMin_perm l m rest h).length_eq
  simpa using this

lemma drainFuel_perm :
    ∀ fuel l, l.length ≤ fuel → List.Perm (drainFuel fuel l) l := by
  intro fuel
  induction fuel with
  | zero =>
    intro l hl
    have : l = [] := List.length_eq_zero.mp (by omega)
    subst this
    rfl
  | succ f ih =>
    intro l hl
    rcases h : popMin l with _ | ⟨m, rest⟩
    · have : l = [] := popMin_nil_iff.mp h
      subst this
      rfl
    · have hlen := popMin_length h
      have hperm := popMin_perm l m rest h
      simp only [drainFuel, h]
      exact (List.Perm.cons m (ih rest (by omega))).trans hperm

lemma mem_drainFuel :
    ∀ fuel l y, y ∈ drainFuel fuel l → y ∈ l := by
  intro fuel
  induction fuel with
  | zero => intro l y h; simp [drainFuel] at h
  | succ f ih =>
    intro l y h
    rcases hp : popMin l with _ | ⟨m, rest⟩
    · simp [drainFuel, hp] at h
    · simp only [drainFuel, hp, List.mem_cons] at h
      have hperm := popMin_perm l m rest hp
      rcases h with h | h
      · subst h
        exact hperm.mem_iff.mp (List.mem_cons_self _ _)
      · exact hperm.mem_iff.mp (List.mem_cons_of_mem m (ih rest y h))

lemma drainFuel_sorted :
    ∀ fuel l, List.Pairwise (fun a b => entryLe a b = true) (drainFuel fuel l) := by
  intro fuel
  induction fuel with
  | zero => intro l; simp [drainFuel]
  | succ f ih =>
    intro l
    rcases hp : popMin l with _ | ⟨m, rest⟩
    · simp [drainFuel, hp]
    · simp only [drainFuel, hp]
      refine List.Pairwise.cons ?_ (ih rest)
      intro y hy
      have hyl : y ∈ l :=
        (popMin_perm l m rest hp).mem_iff.mp
          (List.mem_cons_of_mem m (mem_drainFuel f rest y hy))
      exact popMin_min l m rest hp y hyl

lemma mem_enqueueFrom_seq :
    ∀ ps c (y : QEntry), y ∈ enqueueFrom c ps → c ≤ y.2 := by
  intro ps
  induction ps with
  | nil => intro c y h; simp [enqueueFrom] at h
  | cons p ps ih =>
    intro c y h
    simp only [enqueueFrom, List.mem_cons] at h
    rcases h with h | h
    · subst h; simp
    · have := ih (c + 1) y h; omega

lemma enqueueFrom_seq_mono :
    ∀ ps c, List.Pairwise (fun a b : QEntry => a.2 < b.2) (enqueueFrom c ps) := by
  intro ps
  induction ps with
  | nil => intro c; simp [enqueueFrom]
  | cons p ps ih =>
    intro c
    simp only [enqueueFrom]
    refine List.Pairwise.cons ?_ (ih (c + 1))
    intro y hy
    have := mem_enqueueFrom_seq ps (c + 1) y hy
    omega

/-! ### Helper lemmas about the poll coalescer and rounding -/

lemma pollInv_step {s t : PollSt} (hstep : PStep s t)
    (hinv : inflight s + s.pendingTrig = flagCount s) :
    inflight t + t.pendingTrig = flagCount t := by
  cases hstep with
  | trigSet hflag =>
    cases hex : s.executing <;>
      simp [inflight, flagCount, hflag, hex] at hinv ⊢ <;> omega
  | trigSkip hflag => exact hinv
  | trigEnqueue p hp =>
    cases hex : s.executing <;> cases hfl : s.flag <;>
      simp [inflight, flagCount, hp, hex, hfl] at hinv ⊢ <;> omega
  | workerDequeue q hq hex =>
    cases hfl : s.flag <;>
      simp [inflight, flagCount, hq, hex, hfl] at hinv ⊢ <;> omega
  | workerFinish outcome hex =>
    cases hfl : s.flag <;>
      simp [inflight, flagCount, hex, hfl] at hinv ⊢ <;> omega

lemma pyRoundQ_nearest (q : ℚ) : |q - (pyRoundQ q : ℚ)| ≤ 1 / 2 := by
  have h0 : (Int.floor q : ℚ) ≤ q := Int.floor_le q
  have h1 : q < Int.floor q + 1 := Int.lt_floor_add_one q
  unfold pyRoundQ
  split_ifs with hlt hgt heven
  · rw [abs_le]
    constructor <;> linarith
  · rw [abs_le]
    push_cast
    constructor <;> linarith
  · rw [abs_le]
    constructor <;> linarith
  · rw [abs_le]
    push_cast
    constructor <;> linarith

/-! ### Claim theorems -/

/-- C1 (code evaluated at the failing input): on an operation that
raises a transient transport error on all three attempts of
`with_lock(func)` (retries = 2), the final attempt invokes
`self.reconnect()` while the retrying path still holds `self.hm_lock`
(the trace ends with `reconnectEnter true` and the run deadlocks on the
nested acquisition); no independent, lock-free invocation of reconnect
(`reconnectEnter false`) ever occurs, contrary to the claim that
reconnect is never invoked while the exclusive lock is held by the same
path. -/
theorem claim_c1_reconnect_inside_lock :
    withLock scrT 2 =
      (RunResult.deadlock,
        [Ev.acquire, Ev.call 0, Ev.sleepEv true, Ev.release,
         Ev.acquire, Ev.call 1, Ev.sleepEv true, Ev.release,
         Ev.acquire, Ev.call 2, Ev.reconnectEnter true]) ∧
    Ev.reconnectEnter false ∉ (withLock scrT 2).2 :=
  ⟨rfl, by decide⟩

/-- C2 counterexample: with transient failures on every attempt up to
`maxRetries` (retries = 2), `with_lock` does not return success for the
original task — it deadlocks inside the nested `reconnect` lock
acquisition — refuting the claim that a subsequent successful reconnect
makes the original task succeed. -/
theorem claim_c2_counterexample :
    (withLock scrT 2).1 = RunResult.deadlock ∧
    isSuccess (withLock scrT 2).1 = false :=
  ⟨rfl, rfl⟩

/-- C2 amended: if the operation raises a transient transport error on
every attempt up to `retries`, `with_lock` never returns success for the
original task: the final attempt enters `reconnect` while the transport
lock is still held, and the run deadlocks. -/
theorem claim_c2_amended (script : Nat → AttemptOutcome) (retries : Nat)
    (hall : ∀ j, j ≤ retries → script j = AttemptOutcome.transient) :
    (withLock script retries).1 = RunResult.deadlock ∧
      Ev.reconnectEnter true ∈ (withLock script retries).2 := by
  unfold withLock
  exact withLockFrom_allTransient script retries (retries + 1) 0 (by omega)
    (by omega) (fun j _ hj => hall j hj)

/-- C2 witness: the amended theorem applied to the all-transient script
with retries = 2. -/
theorem claim_c2_witness :
    (withLock scrT 2).1 = RunResult.deadlock ∧
      Ev.reconnectEnter true ∈ (withLock scrT 2).2 :=
  claim_c2_amended scrT 2 (fun _ _ => rfl)

/-- C3: for every sequence of enqueued tasks, dequeue order equals the
tasks sorted by `(priority, sequence)` ascending — the drained order is
a permutation of the enqueued entries that is sorted in the
lexicographic `(priority, sequence)` order (every pending Command entry
is dequeued before any pending Poll entry, and equal priorities keep
FIFO order since sequence numbers are assigned in strictly increasing
enqueue order, the third conjunct); moreover every single `get` removes
an entry minimal among all currently pending entries (fourth
conjunct). -/
theorem claim_c3_dequeue_order (ps : List Nat) :
    List.Perm (drain (enqueueAll ps)) (enqueueAll ps) ∧
    List.Pairwise (fun a b => entryLe a b = true) (drain (enqueueAll ps)) ∧
    List.Pairwise (fun a b : QEntry => a.2 < b.2) (enqueueAll ps) ∧
    (∀ q m rest, popMin q = some (m, rest) → ∀ y ∈ q, entryLe m y = true) :=
  ⟨drainFuel_perm _ _ (le_refl _), drainFuel_sorted _ _,
   enqueueFrom_seq_mono ps 0, popMin_min⟩

/-- C3 witness: the theorem applied to the priority sequence Poll,
Command, Poll, Command, whose drain order puts both Command entries
(sequences 1 and 3) before both Poll entries (sequences 0 and 2), and a
concrete instance of the per-get minimality with a Command entry
preempting an earlier-enqueued Poll entry. -/
theorem claim_c3_witness :
    List.Perm (drain (enqueueAll [1, 0, 1, 0])) (enqueueAll [1, 0, 1, 0]) ∧
    drain (enqueueAll [1, 0, 1, 0]) = [(0, 1), (0, 3), (1, 0), (1, 2)] ∧
    entryLe (0, 1) (1, 0) = true := by
  refine ⟨(claim_c3_dequeue_order [1, 0, 1, 0]).1, rfl, ?_⟩
  exact (claim_c3_dequeue_order [1, 0, 1, 0]).2.2.2
    [(1, 0), (0, 1)] (0, 1) [(1, 0)] rfl (1, 0) (by simp)

/-- C4 counterexample: the state reached from startup after a poll
trigger has test-and-set the `_poll_pending` flag inside
`_poll_pending_lock` but before its `enqueue_task` call (which happens
outside that lock) is reachable, has the flag true, and has zero poll
tasks enqueued or executing — refuting the claim that the flag is true
iff exactly one poll task is in flight at every instant. -/
theorem claim_c4_counterexample :
    PollReach ⟨true, 1, 0, false⟩ ∧
      (PollSt.mk true 1 0 false).flag = true ∧
      inflight ⟨true, 1, 0, false⟩ = 0 :=
  ⟨PollReach.step PollReach.init (PStep.trigSet pollInit rfl), rfl, rfl⟩

/-- C4 amended: in every reachable state, the number of in-flight poll
tasks (enqueued or executing) plus the number of triggers that have set
the flag but not yet enqueued equals the flag read as a count; in
particular at most one poll task is ever in flight, a trigger that finds
the flag true enqueues nothing (`trigSkip` leaves the state unchanged),
and the flag is cleared exactly once per executed poll task in the
worker's completion handling regardless of the task's outcome
(`workerFinish`). -/
theorem claim_c4_amended (s : PollSt) (hreach : PollReach s) :
    inflight s + s.pendingTrig = flagCount s ∧ inflight s ≤ 1 := by
  have hinv : inflight s + s.pendingTrig = flagCount s := by
    induction hreach with
    | init => rfl
    | step hr hstep ih => exact pollInv_step hstep ih
  refine ⟨hinv, ?_⟩
  have hfc : flagCount s ≤ 1 := by unfold flagCount; split <;> omega
  omega

/-- C4 witness: the amended theorem applied to the startup state. -/
theorem claim_c4_witness :
    PollReach pollInit ∧
      inflight pollInit + pollInit.pendingTrig = flagCount pollInit ∧
      inflight pollInit ≤ 1 :=
  ⟨PollReach.init, claim_c4_amended pollInit PollReach.init⟩

/-- C5: a non-transient error on attempt `k` (after transient errors on
the earlier attempts) propagates immediately out of the retry loop of
`with_lock`: the result is `propagated`, the trace is exactly the `k`
transient attempt blocks followed by acquire / call `k` / release, no
reconnect is ever entered, no attempt beyond `k` is made, and the
worker catches the propagated error as a logged failure of the current
task only, continuing with the remaining tasks. -/
theorem claim_c5_nontransient_propagates (script : Nat → AttemptOutcome)
    (retries k : Nat) (hk : k ≤ retries)
    (hpre : ∀ j, j < k → script j = AttemptOutcome.transient)
    (hother : script k = AttemptOutcome.other) :
    withLock script retries =
      (RunResult.propagated,
        attemptBlocks 0 k ++ [Ev.acquire, Ev.call k, Ev.release]) ∧
    (∀ b, Ev.reconnectEnter b ∉ (withLock script retries).2) ∧
    (∀ j, k < j → Ev.call j ∉ (withLock script retries).2) ∧
    (∀ (t : WTask) (rest : List WTask),
      runTask t = TaskOutcome.failedLogged →
      workerRun (t :: rest) =
        (t.seq, TaskOutcome.failedLogged) :: workerRun rest) := by
  have hmain : withLock script retries =
      (RunResult.propagated,
        attemptBlocks 0 k ++ [Ev.acquire, Ev.call k, Ev.release]) := by
    unfold withLock
    have h := withLockFrom_other script retries k (retries + 1) 0
      (by omega) (by omega)
      (fun j hj => by simpa using hpre j hj)
      (by simpa using hother)
    simpa using h
  refine ⟨hmain, ?_, ?_, ?_⟩
  · intro b hmem
    rw [hmain] at hmem
    simp only [List.mem_append, List.mem_cons, List.not_mem_nil,
      or_false] at hmem
    rcases hmem with hmem | hmem | hmem | hmem
    · rcases attemptBlocks_mem k 0 hmem with h | h | h | ⟨j, _, _, h⟩ <;>
        simp at h
    · simp at hmem
    · simp at hmem
    · simp at hmem
  · intro j hj hmem
    rw [hmain] at hmem
    simp only [List.mem_append, List.mem_cons, List.not_mem_nil,
      or_false] at hmem
    rcases hmem with hmem | hmem | hmem | hmem
    · rcases attemptBlocks_mem k 0 hmem with h | h | h | ⟨j2, hj1, hj2, h⟩
      · simp at h
      · simp at h
      · simp at h
      · simp only [Ev.call.injEq] at h
        omega
    · simp at hmem
    · simp only [Ev.call.injEq] at hmem
      omega
    · simp at hmem
  · intro t rest h
    simp [workerRun, h]

/-- C5 witness: the theorem applied with a transient error on the first
attempt and a non-transient error on the second, retries = 2. -/
theorem claim_c5_witness :
    withLock scrC5 2 =
      (RunResult.propagated,
        attemptBlocks 0 1 ++ [Ev.acquire, Ev.call 1, Ev.release]) ∧
    Ev.reconnectEnter true ∉ (withLock scrC5 2).2 := by
  have h := claim_c5_nontransient_propagates scrC5 2 1 (by omega)
    (fun j hj => by
      have hj0 : j = 0 := by omega
      subst hj0
      rfl)
    rfl
  exact ⟨h.1, h.2.1 true⟩

/-- C6 (code evaluated at the failing input): a task whose operation
raises transient transport errors on all three `with_lock` attempts
blocks the worker forever inside the nested `reconnect` lock
acquisition, so the subsequent task is never processed — contrary to the
claim that every failure is confined to its task and the worker always
continues.  For failures that manifest as exceptions the claim's
isolation does hold: a non-transient operation error is caught and
logged and the next task still runs, and a raising completion callback
is caught and logged without affecting the task's completion or the next
task. -/
theorem claim_c6_worker_blocked :
    workerRun [tAllTransient, tSuccess] = [(0, TaskOutcome.blocked)] ∧
    workerRun [tOther, tSuccess] =
      [(0, TaskOutcome.failedLogged), (1, TaskOutcome.completed 5 false)] ∧
    workerRun [tCbRaises, tSuccess] =
      [(0, TaskOutcome.completed 7 true), (1, TaskOutcome.completed 5 false)] :=
  ⟨rfl, rfl, rfl⟩

/-- C7 counterexample: for a zone configured with a floor sensor, the
immediate publish path and the batch poll path derive different
displayed temperatures from the same device readings (air 20, floor 25):
the immediate path publishes the air reading 20, the batch path the
floor reading 25 — refuting the claim that the derivation rules are
applied identically on both paths. -/
theorem claim_c7_counterexample :
    (immediateState ⟨20, 25, 21, false, false⟩).temperature ≠
      (pollZoneState (some "floor") ⟨20, 25, 21, false, false⟩).temperature ∧
    (immediateState ⟨20, 25, 21, false, false⟩).temperature = 20 ∧
    (pollZoneState (some "floor") ⟨20, 25, 21, false, false⟩).temperature = 25 :=
  ⟨by decide, rfl, rfl⟩

/-- C7 amended: mode and action (and target) are derived identically on
both publish paths — mode is "off" exactly when the run mode reads
frost-protection else "heat", action is "heating" exactly when the
heating output is active else "idle" — but the displayed temperature
differs: the immediate path always publishes the air-sensor reading
regardless of the zone's sensor configuration, while the batch poll path
publishes the air reading exactly when the zone's `sensor_type` is
configured as "air" and the floor reading otherwise (including when the
key is absent). -/
theorem claim_c7_amended (sensorType : Option String) (r : ThermoReading) :
    (immediateState r).mode = (pollZoneState sensorType r).mode ∧
    (immediateState r).action = (pollZoneState sensorType r).action ∧
    (immediateState r).target = (pollZoneState sensorType r).target ∧
    (immediateState r).mode = (if r.runModeFrost then "off" else "heat") ∧
    (immediateState r).action = (if r.heatActive then "heating" else "idle") ∧
    (immediateState r).temperature = r.airTemp ∧
    (pollZoneState sensorType r).temperature =
      (if sensorType = some "air" then r.airTemp else r.floorTemp) :=
  ⟨rfl, rfl, rfl, rfl, rfl, rfl, rfl⟩

/-- C8 counterexample: with a transient error on the first attempt, the
inter-attempt `time.sleep(delay)` happens while the retrying path holds
the transport lock (`sleepEv true` in the trace; no `sleepEv false`
occurs) — refuting the claim that the sleep always occurs while the lock
is not held. -/
theorem claim_c8_counterexample :
    (withLock scrC8 2).2 =
      [Ev.acquire, Ev.call 0, Ev.sleepEv true, Ev.release,
       Ev.acquire, Ev.call 1, Ev.release] ∧
    Ev.sleepEv true ∈ (withLock scrC8 2).2 ∧
    Ev.sleepEv false ∉ (withLock scrC8 2).2 :=
  ⟨rfl, by decide, by decide⟩

/-- C8 amended: every inter-attempt sleep of the retry loop occurs while
the exclusive transport lock is held by the retrying path
(`time.sleep(delay)` is lexically inside the `with self.hm_lock` block),
for every script of operation outcomes and every retry budget. -/
theorem claim_c8_amended (script : Nat → AttemptOutcome) (retries : Nat) :
    sleepsHeld (withLock script retries).2 = true :=
  sleepsHeld_withLockFrom script retries (retries + 1) 0

/-- C9 counterexample: a `set/target` payload whose parse outcome is an
overflowing round (Python: payloads such as "inf" or "1e400", for which
`round(float(payload))` raises `OverflowError`, which `except
ValueError` does not catch) produces no task but raises out of the
message handler without logging — refuting the claim that every
non-task-producing payload is logged and dropped with no error escaping
the handler. -/
theorem claim_c9_counterexample :
    (onMessageTarget RoundOutcome.overflowError).tasks = [] ∧
    (onMessageTarget RoundOutcome.overflowError).raised = true ∧
    (onMessageTarget RoundOutcome.overflowError).logged = false :=
  ⟨rfl, rfl, rfl⟩

/-- C9 amended: a payload that parses as a finite decimal is rounded to
the nearest whole unit (round-half-to-even; the rounded value differs
from the parsed value by at most 1/2) and exactly one priority-0 command
task carrying that value is enqueued with nothing logged or raised; a
payload whose parse or round raises `ValueError` (non-numeric text, NaN)
is logged and dropped with no task and no error escaping the handler;
but a payload that parses to an infinite float raises an uncaught
`OverflowError` out of the handler, producing no task and no log. -/
theorem claim_c9_amended :
    (∀ q : ℚ, onMessageTarget (RoundOutcome.val (pyRoundQ q)) =
        ⟨[(0, DeviceOp.setTarget (pyRoundQ q))], false, false⟩ ∧
      |q - (pyRoundQ q : ℚ)| ≤ 1 / 2) ∧
    onMessageTarget RoundOutcome.valueError = ⟨[], true, false⟩ ∧
    onMessageTarget RoundOutcome.overflowError = ⟨[], false, true⟩ :=
  ⟨fun q => ⟨rfl, pyRoundQ_nearest q⟩, rfl, rfl⟩

/-- C10: for every incoming `set/mode` payload that is not "OFF"
case-insensitively, the enqueued command requests normal heating mode
(`set_frost_protect_mode(False)`), while the completion callback
publishes the lowercased raw payload verbatim as the retained mode value
(the override `{"mode": payload.lower()}` wins over the derived mode in
`state.update`), so a payload like "auto" is echoed instead of being
normalized to "heat". -/
theorem claim_c10_mode_echo (payload : String) (r : ThermoReading)
    (h : pyUpper payload ≠ "OFF") :
    (onMessageMode payload).frost = false ∧
    (applyOverride (immediateState r)
        (onMessageMode payload).modeOverride).mode = pyLower payload := by
  constructor
  · simp only [onMessageMode]
    exact beq_eq_false_iff_ne.mpr h
  · rfl

/-- C10 witness: the theorem applied to payload "auto" — the command
requests normal heating mode and the published retained mode value is
"auto", not "heat". -/
theorem claim_c10_witness :
    (onMessageMode "auto").frost = false ∧
    (applyOverride (immediateState ⟨20, 25, 21, false, false⟩)
        (onMessageMode "auto").modeOverride).mode = "auto" ∧
    pyLower "auto" ≠ "heat" := by
  have h := claim_c10_mode_echo "auto" ⟨20, 25, 21, false, false⟩ (by decide)
  refine ⟨h.1, ?_, by decide⟩
  rw [h.2]
  rfl
